import Mathlib

/-!
# Verification of the sepex local job scheduler and lifecycle engine

Shallow embedding of the sepex server's job lifecycle code
(`SubprocessJob`, `DockerJob`, `QueueWorker`, process-spec validation)
together with the `ResourcePool` / `PendingJobs` collaborators.
Pure control flow is translated into Lean functions; OS and runtime
effects (file creation, process start, container wait, `os.Getenv`) are
threaded through explicit environment records, and state mutation is
explicit state passing.
-/

namespace Sepex

/-! ## Go string helpers

`goHasPrefix`, `goTrimPrefix` and `goToUpper` embed `strings.HasPrefix`,
`strings.TrimPrefix` and `strings.ToUpper` on the character-list view of
a `String` (process ids and env-var names are ASCII). -/

def goHasPrefix (s pre : String) : Bool :=
  pre.data.isPrefixOf s.data

def goTrimPrefix (s pre : String) : String :=
  if goHasPrefix s pre then String.mk (s.data.drop pre.data.length) else s

def goToUpper (s : String) : String :=
  String.mk (s.data.map Char.toUpper)

/-! ## Job status values

Modelled from the spec: the status constants `ACCEPTED`, `RUNNING`,
`SUCCESSFUL`, `FAILED`, `DISMISSED` live in a jobs-package file that is
not under `src/`; the spec fixes the status set
`{accepted, running, successful, failed, dismissed}`. -/

def ACCEPTED : String := "accepted"
def RUNNING : String := "running"
def SUCCESSFUL : String := "successful"
def FAILED : String := "failed"
def DISMISSED : String := "dismissed"

/-- The terminal statuses tested by `NewStatusUpdate`, `Kill` and
`UpdateProcessLogs` (`case SUCCESSFUL, DISMISSED, FAILED`). -/
def isTerminal (s : String) : Bool :=
  s = SUCCESSFUL || s = DISMISSED || s = FAILED

/-! ## Job status state (shared shape of `SubprocessJob` / `DockerJob`)

The observable state touched by `NewStatusUpdate` and `Kill`: the
`Status` and `UpdateTime` fields and the database rows written through
`DB.updateJobRecord`.  Go's `time.Time` is modelled as `Int`, with `0`
playing the role of the zero time (`updateTime.IsZero()`); the ambient
clock (`time.Now()`) is passed in explicitly as `now`. -/

structure DBRecord where
  jobID : String
  status : String
  time : Int
  deriving Repr, DecidableEq

structure JobState where
  uuid : String
  status : String
  updateTime : Int
  db : List DBRecord
  deriving Repr, DecidableEq

namespace SubprocessJob

/-- `SubprocessJob.NewStatusUpdate` (part_001:448-464): no-op when the
current status is terminal, otherwise set status, resolve the update
time (zero means "now"), and write the job record to the database. -/
def NewStatusUpdate (now : Int) (j : JobState) (status : String) (updateTime : Int) :
    JobState :=
  if j.status = SUCCESSFUL ∨ j.status = DISMISSED ∨ j.status = FAILED then j
  else
    let t := if updateTime = 0 then now else updateTime
    { j with status := status, updateTime := t,
             db := j.db ++ [⟨j.uuid, status, t⟩] }

end SubprocessJob

namespace DockerJob

/-- `DockerJob.NewStatusUpdate` (docker_jobs.go:149-165); textually the
same body as the subprocess variant. -/
def NewStatusUpdate (now : Int) (j : JobState) (status : String) (updateTime : Int) :
    JobState :=
  if j.status = SUCCESSFUL ∨ j.status = DISMISSED ∨ j.status = FAILED then j
  else
    let t := if updateTime = 0 then now else updateTime
    { j with status := status, updateTime := t,
             db := j.db ++ [⟨j.uuid, status, t⟩] }

end DockerJob

/-- Apply a whole sequence of `NewStatusUpdate` calls
(`(now, status, updateTime)` triples) to a subprocess job. -/
def applySubUpdates (j : JobState) (us : List (Int × String × Int)) : JobState :=
  us.foldl (fun s u => SubprocessJob.NewStatusUpdate u.1 s u.2.1 u.2.2) j

/-- Apply a whole sequence of `NewStatusUpdate` calls to a docker job. -/
def applyDockerUpdates (j : JobState) (us : List (Int × String × Int)) : JobState :=
  us.foldl (fun s u => DockerJob.NewStatusUpdate u.1 s u.2.1 u.2.2) j

/-! ## Kill (C6)

`Kill` additionally cancels the job's context and schedules `Close()`;
those two effects are recorded as booleans. -/

structure KillJob where
  core : JobState
  ctxCancelled : Bool
  closeScheduled : Bool
  deriving Repr, DecidableEq

namespace SubprocessJob

/-- `SubprocessJob.Kill` (part_001:636-655): refuse (error, nothing
changed) when the current status is terminal; otherwise update status to
`DISMISSED`, cancel the context, and schedule `Close()` in a goroutine.
The returned `Option String` is the Go error (`some` = non-nil). -/
def Kill (now : Int) (j : KillJob) : Option String × KillJob :=
  if j.core.status = SUCCESSFUL ∨ j.core.status = FAILED ∨ j.core.status = DISMISSED then
    (some "can't call delete on an already completed, failed, or dismissed job", j)
  else
    let core := NewStatusUpdate now j.core DISMISSED 0
    (none, { core := core, ctxCancelled := true, closeScheduled := true })

end SubprocessJob

namespace DockerJob

/-- `DockerJob.Kill` (docker_jobs.go:351-370); same body as the
subprocess variant. -/
def Kill (now : Int) (j : KillJob) : Option String × KillJob :=
  if j.core.status = SUCCESSFUL ∨ j.core.status = FAILED ∨ j.core.status = DISMISSED then
    (some "can't call delete on an already completed, failed, or dismissed job", j)
  else
    let core := NewStatusUpdate now j.core DISMISSED 0
    (none, { core := core, ctxCancelled := true, closeScheduled := true })

end DockerJob

/-! ## Close (C4)

`Close()` on both job kinds is guarded by `closeOnce sync.Once`: the
latch is the `closed` flag, and `bodyRuns` counts how many times the
body passed to `closeOnce.Do` has actually executed.  Effects of the
body are recorded as counters/flags. -/

structure SubCloseState where
  closed : Bool
  bodyRuns : Nat
  ctxCancelled : Bool
  doneSent : Nat
  finishersSpawned : Nat
  deriving Repr, DecidableEq

namespace SubprocessJob

/-- `SubprocessJob.Close` (part_001:697-731): under the `closeOnce`
latch, cancel the context, send the job on `DoneChan`, and spawn the
detached log-upload finisher goroutine. -/
def Close (s : SubCloseState) : SubCloseState :=
  if s.closed then s
  else
    { closed := true
      bodyRuns := s.bodyRuns + 1
      ctxCancelled := true
      doneSent := s.doneSent + 1
      finishersSpawned := s.finishersSpawned + 1 }

/-- `n` successive calls to `SubprocessJob.Close`. -/
def closeN : Nat → SubCloseState → SubCloseState
  | 0, s => s
  | n + 1, s => closeN n (Close s)

end SubprocessJob

/-- OS/runtime outcomes inside the body of `DockerJob.Close`: whether
`controllers.NewDockerController()` succeeds and whether `os.Create` of
the process-log file succeeds. -/
structure DockerCloseEnv where
  ctrlOk : Bool
  fileOk : Bool
  deriving Repr, DecidableEq

structure DockerCloseState where
  closed : Bool
  bodyRuns : Nat
  ctxCancelled : Bool
  /-- whether `j.ContainerID != ""` when Close runs -/
  hasContainer : Bool
  containerRemoved : Bool
  doneSent : Nat
  finishersSpawned : Nat
  deriving Repr, DecidableEq

namespace DockerJob

/-- `DockerJob.Close` (docker_jobs.go:458-521): under the `closeOnce`
latch, cancel the context; when a container exists and the controller
is available, fetch its final logs, write them to the process-log file
(an `os.Create` failure makes the closure return early, before the
`DoneChan` send) and remove the container; then send on `DoneChan` and
spawn the detached finisher. -/
def Close (env : DockerCloseEnv) (s : DockerCloseState) : DockerCloseState :=
  if s.closed then s
  else
    let s1 := { s with closed := true, bodyRuns := s.bodyRuns + 1, ctxCancelled := true }
    if s.hasContainer then
      if env.ctrlOk then
        if env.fileOk then
          { s1 with containerRemoved := true
                    doneSent := s1.doneSent + 1
                    finishersSpawned := s1.finishersSpawned + 1 }
        else
          -- `return` inside the closeOnce closure: no DoneChan send, no finisher
          s1
      else
        -- controller creation failed: container cleanup skipped, but Close proceeds
        { s1 with doneSent := s1.doneSent + 1
                  finishersSpawned := s1.finishersSpawned + 1 }
    else
      { s1 with doneSent := s1.doneSent + 1
                finishersSpawned := s1.finishersSpawned + 1 }

/-- A sequence of calls to `DockerJob.Close`, each with its own
environment outcome. -/
def closeSeq : List DockerCloseEnv → DockerCloseState → DockerCloseState
  | [], s => s
  | e :: es, s => closeSeq es (Close e s)

end DockerJob

/-! ## Run traces (C2)

`Run()` on both job kinds is modelled as the sequence of observable
events it performs.  The fallible steps (file creation, process start,
container calls, the non-blocking cancellation check, the wait result)
are oracles in an environment record; a panic anywhere in the body is
modelled by `panicAt = some k`, which truncates the body after `k`
events and makes the deferred `recover()` fire.  The consolidated
deferred cleanup of both `Run` functions is `runDefer` below; the
`Close()` it calls is expanded inline, guarded by whether the
`closeOnce` latch was already taken (`alreadyClosed`, set when `Kill`'s
`go j.Close()` won the race). -/

inductive Event
  /-- a call to `NewStatusUpdate` with the given status -/
  | status (s : String)
  /-- the child process / container was started -/
  | started
  /-- `execCmd.Wait()` / `ContainerWait` returned -/
  | waited
  /-- `go j.WriteMetaData()` -/
  | metaSpawn
  /-- the deferred `recover()` caught a panic -/
  | recovered
  /-- `ResourcePool.Release(j.Resources.CPUs, j.Resources.Memory)` -/
  | release
  /-- `j.Close()` was invoked -/
  | closeCall
  /-- `j.ctxCancel()` inside the Close body -/
  | ctxCancel
  /-- container log fetch + `ContainerRemove` inside the Close body -/
  | containerCleanup
  /-- `j.DoneChan <- j` inside the Close body -/
  | doneSend
  /-- the detached log-upload finisher goroutine was spawned -/
  | finisherSpawn
  /-- `j.wgRun.Done()` -/
  | wgDone
  deriving Repr, DecidableEq

structure SubRunEnv where
  /-- `os.Create` of the process log file succeeds -/
  logFileOk : Bool
  /-- `execCmd.Start()` succeeds -/
  startOk : Bool
  /-- the non-blocking `ctx.Done()` check after start fires -/
  cancelledAfterStart : Bool
  /-- `execCmd.Wait()` returns a non-nil error -/
  waitErr : Bool
  /-- `j.CurrentStatus() == DISMISSED` when the wait error is examined -/
  dismissedAtWaitErr : Bool
  /-- a panic occurs after this many body events -/
  panicAt : Option Nat
  /-- the `closeOnce` latch was already taken (e.g. by `Kill`) -/
  alreadyClosed : Bool
  deriving Repr, DecidableEq

/-- The body of `SubprocessJob.Run` (part_001:559-633) without its
deferred cleanup: prepare the command, create the log file, start,
mark `RUNNING`, check cancellation, wait, and classify the outcome. -/
def subRunBody (e : SubRunEnv) : List Event :=
  if ¬e.logFileOk then [.status FAILED]
  else if ¬e.startOk then [.status FAILED]
  else [.started, .status RUNNING] ++
    (if e.cancelledAfterStart then []
     else [.waited] ++
       (if e.waitErr then
          (if e.dismissedAtWaitErr then [] else [.status FAILED])
        else [.status SUCCESSFUL, .metaSpawn]))

/-- The events of the `SubprocessJob.Close` body (part_001:697-731),
as they appear when Run's deferred `j.Close()` wins the latch. -/
def subCloseEvents (alreadyClosed : Bool) : List Event :=
  if alreadyClosed then []
  else [.ctxCancel, .doneSend, .finisherSpawn]

/-- The single consolidated deferred cleanup shared by both `Run`
functions: recover a panic (transitioning to `FAILED`), release the
job's resources, call `Close()`, then `wgRun.Done()`. `closeEvents` is
the expansion of the `Close()` call for the particular job kind. -/
def runDefer (panicked : Bool) (closeEvents : List Event) : List Event :=
  (if panicked then [.recovered, .status FAILED] else []) ++
    [.release, .closeCall] ++ closeEvents ++ [.wgDone]

/-- Full event trace of one `SubprocessJob.Run` invocation. -/
def subRunTrace (e : SubRunEnv) : List Event :=
  (match e.panicAt with
   | none => subRunBody e
   | some k => (subRunBody e).take k) ++
    runDefer e.panicAt.isSome (subCloseEvents e.alreadyClosed)

structure DockerRunEnv where
  /-- `controllers.NewDockerController()` succeeds -/
  ctrlOk : Bool
  /-- first `EnsureImage` succeeds -/
  image1Ok : Bool
  /-- second `EnsureImage` succeeds -/
  image2Ok : Bool
  /-- `ContainerRun` succeeds -/
  containerRunOk : Bool
  /-- the non-blocking `ctx.Done()` check after start fires -/
  cancelledAfterStart : Bool
  /-- `ContainerWait` returns a non-nil error -/
  waitErr : Bool
  /-- the container exit code is zero -/
  exitZero : Bool
  /-- a panic occurs after this many body events -/
  panicAt : Option Nat
  /-- the `closeOnce` latch was already taken (e.g. by `Kill`) -/
  alreadyClosed : Bool
  /-- `j.ContainerID != ""` when the deferred Close body runs -/
  hasContainer : Bool
  /-- `NewDockerController()` inside the Close body succeeds -/
  closeCtrlOk : Bool
  /-- `os.Create` of the process-log file inside the Close body succeeds -/
  closeFileOk : Bool
  deriving Repr, DecidableEq

/-- The body of `DockerJob.Run` (docker_jobs.go:260-348) without its
deferred cleanup. -/
def dockerRunBody (e : DockerRunEnv) : List Event :=
  if ¬e.ctrlOk then [.status FAILED]
  else if ¬e.image1Ok then [.status FAILED]
  else if ¬e.image2Ok then [.status FAILED]
  else if ¬e.containerRunOk then [.status FAILED]
  else [.started, .status RUNNING] ++
    (if e.cancelledAfterStart then []
     else [.waited] ++
       (if e.waitErr then [.status FAILED]
        else if ¬e.exitZero then [.status FAILED]
        else [.status SUCCESSFUL, .metaSpawn]))

/-- The events of the `DockerJob.Close` body (docker_jobs.go:458-521)
when Run's deferred `j.Close()` wins the latch: context cancel, then —
when a container exists — log fetch/write and container removal, where
a failing `os.Create` makes the closure return early, skipping the
`DoneChan` send and the finisher. -/
def dockerCloseEvents (e : DockerRunEnv) : List Event :=
  if e.alreadyClosed then []
  else [.ctxCancel] ++
    (if e.hasContainer then
       if e.closeCtrlOk then
         if e.closeFileOk then [.containerCleanup, .doneSend, .finisherSpawn]
         else []
       else [.doneSend, .finisherSpawn]
     else [.doneSend, .finisherSpawn])

/-- Full event trace of one `DockerJob.Run` invocation. -/
def dockerRunTrace (e : DockerRunEnv) : List Event :=
  (match e.panicAt with
   | none => dockerRunBody e
   | some k => (dockerRunBody e).take k) ++
    runDefer e.panicAt.isSome (dockerCloseEvents e)

/-- The environment that exhibits the DoneChan gap in `DockerJob.Close`:
the container ran to a successful exit, nobody closed the job earlier,
the controller is created inside Close, but `os.Create` of the
process-log file fails there. -/
def dockerGapEnv : DockerRunEnv :=
  { ctrlOk := true, image1Ok := true, image2Ok := true, containerRunOk := true
    cancelledAfterStart := false, waitErr := false, exitZero := true
    panicAt := none, alreadyClosed := false
    hasContainer := true, closeCtrlOk := true, closeFileOk := false }

/-! ## ResourcePool and PendingJobs

The implementations of these two collaborators are not under `src/`
(only their callers are), so they are modelled from the spec. -/

/-- Resources carried by a job (`Resources{CPUs float32, Memory int}`);
cpu counts are modelled as rationals, memory as integers. -/
structure Resources where
  cpus : ℚ
  memory : ℤ
  deriving Repr, DecidableEq

/-- Modelled from the spec: `ResourcePool` state — `total` and `used`
drive admission, `queued` is advisory (§3, §4.1).  The release-channel
signal is omitted; the claims here concern the counters. -/
structure ResourcePool where
  totalCPUs : ℚ
  totalMemory : ℤ
  usedCPUs : ℚ
  usedMemory : ℤ
  queuedCPUs : ℚ
  queuedMemory : ℤ
  deriving Repr, DecidableEq

namespace ResourcePool

/-- Modelled from the spec: `TryReserve(r)` returns true iff
`used + r ≤ total`, and on true commits `used += r` atomically;
on false it changes nothing (§3, §4.1). -/
def TryReserve (p : ResourcePool) (r : Resources) : Bool × ResourcePool :=
  if p.usedCPUs + r.cpus ≤ p.totalCPUs ∧ p.usedMemory + r.memory ≤ p.totalMemory then
    (true, { p with usedCPUs := p.usedCPUs + r.cpus,
                    usedMemory := p.usedMemory + r.memory })
  else (false, p)

/-- Modelled from the spec: `Release(r)` performs `used -= r`, with
undershoot clamped to zero (§4.1). -/
def Release (p : ResourcePool) (r : Resources) : ResourcePool :=
  { p with usedCPUs := max (p.usedCPUs - r.cpus) 0,
           usedMemory := max (p.usedMemory - r.memory) 0 }

/-- Modelled from the spec: `RemoveQueued` adjusts the advisory queued
counters; it never gates admission (§4.1). -/
def RemoveQueued (p : ResourcePool) (r : Resources) : ResourcePool :=
  { p with queuedCPUs := p.queuedCPUs - r.cpus,
           queuedMemory := p.queuedMemory - r.memory }

end ResourcePool

/-- A queued job as the scheduler sees it: `JobID()` and
`GetResources()`. -/
structure QJob where
  jobID : String
  resources : Resources
  deriving Repr, DecidableEq

namespace PendingJobs

/-- Modelled from the spec: `Peek()` returns the head of the FIFO, or
nil when empty (§4.2). -/
def Peek (q : List QJob) : Option QJob :=
  q.head?

/-- Modelled from the spec: `Remove(jobId)` removes the entry with the
given id, preserving the order of the rest, and returns it; nil when
absent (§4.2). -/
def Remove (id : String) : List QJob → Option (QJob × List QJob)
  | [] => none
  | j :: rest =>
    if j.jobID = id then some (j, rest)
    else (Remove id rest).map (fun x => (x.1, j :: x.2))

end PendingJobs

/-! ## QueueWorker.tryStartJobs — one iteration (C1)

`tryStartJobs` (part_001:817-844) loops: peek the head, try to reserve
its resources, remove it by id, and start it.  `Dismiss` can remove the
job between the peek and the remove, so one iteration is modelled
against two queue snapshots: `q1`, the queue at `Peek`, and `q2`, the
queue at `Remove`. -/

inductive IterResult
  /-- `Peek` returned nil: the loop returns -/
  | queueEmpty
  /-- `TryReserve` refused: the loop returns and waits for a release -/
  | noResources
  /-- `Remove` returned nil (the job was dismissed between peek and
  remove): the reservation is released and the loop continues with the
  new head; nothing is started -/
  | raced (pool : ResourcePool)
  /-- the job was removed and started (`go removed.Run()`) -/
  | started (j : QJob) (pool : ResourcePool) (queue : List QJob)
  deriving Repr, DecidableEq

/-- One iteration of `QueueWorker.tryStartJobs` (part_001:818-843). -/
def tryStartIter (q1 q2 : List QJob) (p : ResourcePool) : IterResult :=
  match PendingJobs.Peek q1 with
  | none => .queueEmpty
  | some job =>
    let res := job.resources
    match ResourcePool.TryReserve p res with
    | (false, _) => .noResources
    | (true, p1) =>
      match PendingJobs.Remove job.jobID q2 with
      | none => .raced (p1.Release res)
      | some (removed, q2') => .started removed (p1.RemoveQueued res) q2'

/-! ## Create (C5)

`Create()` on both job kinds (part_001:511-553, docker_jobs.go:212-254)
reserves resources only for sync jobs and releases them through a
deferred `if !success && j.IsSync` block on every error path after the
reservation.  Logger initialization and the `DB.addJob` insert are the
two fallible steps. -/

structure CreateEnv where
  /-- `initLogger()` succeeds -/
  loggerOk : Bool
  /-- `DB.addJob(...)` succeeds -/
  addJobOk : Bool
  deriving Repr, DecidableEq

structure CreateOutcome where
  /-- the Go error returned by `Create` (`some` = non-nil) -/
  err : Option String
  pool : ResourcePool
  /-- whether `ResourcePool.TryReserve` was called -/
  reserveAttempted : Bool
  /-- whether `j.wgRun.Add(1)` ran -/
  wgRunAdded : Bool
  deriving Repr, DecidableEq

/-- `Create()` for a local job (identical bodies in
`SubprocessJob.Create` and `DockerJob.Create`).  The `Release` calls in
the error branches are Go's deferred
`if !success && j.IsSync { ResourcePool.Release(...) }` firing on
return. -/
def createJob (isSync : Bool) (r : Resources) (env : CreateEnv) (p : ResourcePool) :
    CreateOutcome :=
  if isSync then
    match ResourcePool.TryReserve p r with
    | (false, _) =>
      { err := some "resources unavailable", pool := p
        reserveAttempted := true, wgRunAdded := false }
    | (true, p1) =>
      if ¬env.loggerOk then
        { err := some "failed to open log file", pool := p1.Release r
          reserveAttempted := true, wgRunAdded := false }
      else if ¬env.addJobOk then
        { err := some "db error", pool := p1.Release r
          reserveAttempted := true, wgRunAdded := false }
      else
        { err := none, pool := p1, reserveAttempted := true, wgRunAdded := true }
  else
    if ¬env.loggerOk then
      { err := some "failed to open log file", pool := p
        reserveAttempted := false, wgRunAdded := false }
    else if ¬env.addJobOk then
      { err := some "db error", pool := p
        reserveAttempted := false, wgRunAdded := false }
    else
      { err := none, pool := p, reserveAttempted := false, wgRunAdded := true }

/-! ## Process specifications (process_describe.go) -/

structure InputSpec where
  id : String
  minOccurs : Int
  maxOccurs : Int
  deriving Repr, DecidableEq

structure OutputSpec where
  id : String
  deriving Repr, DecidableEq

structure ProcessInfo where
  version : String
  id : String
  title : String
  jobControlOptions : List String
  outputTransmission : List String
  deriving Repr, DecidableEq

structure ProcessHost where
  hostType : String
  jobDefinition : String
  jobQueue : String
  image : String
  deriving Repr, DecidableEq

structure ProcessConfig where
  envVars : List String
  cpus : ℚ
  memory : ℤ
  deriving Repr, DecidableEq

structure Process where
  info : ProcessInfo
  host : ProcessHost
  config : ProcessConfig
  inputs : List InputSpec
  outputs : List OutputSpec
  deriving Repr, DecidableEq

/-! ## VerifyLocalEnvars and env-var resolution (C7) -/

/-- The loop body of `Process.VerifyLocalEnvars`
(process_describe.go:156-164): return nil on the first env-var name
that does not carry the `strings.ToUpper(p.Info.ID)` prefix (Go: return
that error immediately), otherwise collect the names whose host value
(`os.Getenv`) is empty. -/
def collectEnvVars (getenv : String → String) (upperID : String) :
    List String → Option (List String)
  | [] => some []
  | v :: rest =>
    if ¬goHasPrefix v upperID then none
    else
      match collectEnvVars getenv upperID rest with
      | none => none
      | some missing => some (if getenv v = "" then v :: missing else missing)

/-- `Process.VerifyLocalEnvars` (process_describe.go:154-169).  The
result is the Go error (`some` = non-nil). -/
def Process.VerifyLocalEnvars (getenv : String → String) (p : Process) : Option String :=
  match collectEnvVars getenv (goToUpper p.info.id) p.config.envVars with
  | none => some "env variable does not start with upper-cased process id"
  | some [] => none
  | some (_ :: _) => some "env variables not found"

/-- The env-var resolution loop shared by `SubprocessJob.Run`
(part_001:580-586) and `DockerJob.Run` (docker_jobs.go:292-297):
`envs[i] = strings.TrimPrefix(k, strings.ToUpper(processName)+"_") + "=" + os.Getenv(k)`. -/
def resolveEnvVars (getenv : String → String) (processName : String)
    (envVars : List String) : List String :=
  envVars.map (fun k => goTrimPrefix k (goToUpper processName ++ "_") ++ "=" ++ getenv k)

/-! ## Process.Validate and loading (C8)

`Process.Validate` needs three external oracles: `os.Getenv` (for
`VerifyLocalEnvars`) and, for docker processes, the Docker controller
(`NewDockerController` + `EnsureImage`) and the local-volume check. -/

structure ValidateEnv where
  getenv : String → String
  /-- `NewDockerController()` and `EnsureImage` both succeed -/
  dockerImageOk : Bool
  /-- `EnsureLocalVolumes()` succeeds -/
  volumesOk : Bool

/-- `Process.Validate` (process_describe.go:293-378): required info
fields, legal `jobControlOptions` / `outputTransmission` entries, legal
host type, per-host required fields, env vars, docker image/volume
checks, and non-empty input/output ids.  The result is the Go error
(`some` = non-nil). -/
def Process.Validate (env : ValidateEnv) (p : Process) : Option String :=
  if p.info.id = "" then some "process ID is required"
  else if p.info.title = "" then some "process title is required"
  else if p.info.version = "" then some "version is required"
  else if ¬p.info.jobControlOptions.all
      (fun o => o = "sync-execute" || o = "async-execute") then
    some "invalid jobControlOption"
  else if ¬p.info.outputTransmission.all
      (fun t => t = "reference" || t = "value") then
    some "invalid outputTransmission"
  else if p.host.hostType ≠ "docker" ∧ p.host.hostType ≠ "aws-batch" ∧
      p.host.hostType ≠ "subprocess" then
    some "host type must be docker or aws-batch or subprocess"
  else if p.host.hostType = "docker" ∧ p.host.image = "" then
    some "container image is required for docker host type"
  else if p.host.hostType = "aws-batch" ∧
      (p.host.jobQueue = "" ∨ p.host.jobDefinition = "") then
    some "job information is required for aws-batch host type"
  else
    match p.VerifyLocalEnvars env.getenv with
    | some e => some e
    | none =>
      if p.host.hostType = "docker" ∧ ¬env.dockerImageOk then
        some "docker image unavailable"
      else if p.host.hostType = "docker" ∧ ¬env.volumesOk then
        some "volume error"
      else if ¬p.inputs.all (fun i => i.id ≠ "") then some "input ID is required"
      else if ¬p.outputs.all (fun o => o.id ≠ "") then some "output ID is required"
      else none

/-- Modelled from the spec: the resource-limit validation performed by
the three-argument `LoadProcesses(dir, limits.MaxCPUs, limits.MaxMemory)`
called from `NewRESTHander` (config.go:198).  The limits-enforcing
variant of `LoadProcesses`/`Validate` is not under `src/` (src holds an
older one-argument `LoadProcesses`); per the spec, "for local host
types, `maxResources.cpus ≤ limits.MaxCPUs` and
`maxResources.memoryMB ≤ limits.MaxMemoryMB`, enforced at load" (§3),
local host types being docker and subprocess. -/
def Process.ValidateWithLimits (env : ValidateEnv) (maxCPUs : ℚ) (maxMemory : ℤ)
    (p : Process) : Option String :=
  if (p.host.hostType = "docker" ∨ p.host.hostType = "subprocess") ∧
      (maxCPUs < p.config.cpus ∨ maxMemory < p.config.memory) then
    some "process resources exceed configured limits"
  else p.Validate env

/-- Modelled from the spec together with `LoadProcesses`
(process_describe.go:253-290): processes whose validation fails are
logged and skipped, the rest are registered.  YAML unmarshalling is
out of scope; the input is the list of parsed processes. -/
def LoadProcesses (env : ValidateEnv) (maxCPUs : ℚ) (maxMemory : ℤ)
    (ps : List Process) : List Process :=
  ps.filter (fun p => (p.ValidateWithLimits env maxCPUs maxMemory).isNone)

/-! ## VerifyInputs (C9, C10)

The supplied inputs arrive as a JSON object (`map[string]interface{}`);
a value is either a sequence (`[]interface{}`, contributing its length
as the occurrence count) or anything else (contributing 1).  The Go
maps (`inp` and `requestInp`) are modelled as association lists; Go map
keys are unique, which the theorems assume as `Nodup` hypotheses. -/

inductive InpVal
  /-- a JSON sequence of the given length -/
  | seq (n : Nat)
  /-- any non-sequence value -/
  | scalar
  deriving Repr, DecidableEq

/-- The occurrence count of a supplied value
(`case []interface{}: o.occur = len(v); default: o.occur = 1`). -/
def occurOf : InpVal → Int
  | .seq n => (n : Int)
  | .scalar => 1

/-- One entry of the `requestInp` map: `inpOccurance` plus its key. -/
structure ReqEntry where
  id : String
  occur : Int
  minOccur : Int
  maxOccur : Int
  deriving Repr, DecidableEq

/-- `requestInp[k].occur = n` for the first entry keyed `k`; `none`
when `k` is not a key (Go: `o, ok := requestInp[k]` with `!ok`). -/
def setOccur (k : String) (n : Int) : List ReqEntry → Option (List ReqEntry)
  | [] => none
  | e :: rest =>
    if e.id = k then some ({ e with occur := n } :: rest)
    else (setOccur k n rest).map (e :: ·)

/-- The loop over the supplied input map (process_describe.go:131-143):
set each supplied key's occurrence count, failing on an undeclared
key. -/
def applyInp : List ReqEntry → List (String × InpVal) → Option (List ReqEntry)
  | req, [] => some req
  | req, (k, v) :: rest =>
    match setOccur k (occurOf v) req with
    | none => none
    | some req' => applyInp req' rest

/-- The per-entry occurrence check (process_describe.go:145-149):
an entry fails when `(maxOccur > 0 && occur > maxOccur) || occur < minOccur`. -/
def checkEntry (e : ReqEntry) : Bool :=
  ¬((e.maxOccur > 0 ∧ e.occur > e.maxOccur) ∨ e.occur < e.minOccur)

/-- The entry an input spec contributes to `requestInp`
(`requestInp[i.ID] = &inpOccurance{0, i.MinOccurs, i.MaxOccurs}`). -/
def toReqEntry (i : InputSpec) : ReqEntry :=
  ⟨i.id, 0, i.minOccurs, i.maxOccurs⟩

/-- `Process.VerifyInputs` (process_describe.go:123-152) restricted to
its declared-inputs data; `true` means the Go function returns nil. -/
def verifyInputs (inputs : List InputSpec) (inp : List (String × InpVal)) : Bool :=
  match applyInp (inputs.map toReqEntry) inp with
  | none => false
  | some req => req.all checkEntry

/-- Lookup in the supplied-input association list (the Go map read
`inp[k]`). -/
def assocLookup (id : String) : List (String × InpVal) → Option InpVal
  | [] => none
  | (k, v) :: rest => if k = id then some v else assocLookup id rest

/-- The occurrence count a supplied map assigns to a declared input:
the count of its value when supplied, `0` otherwise. -/
def suppliedCount (inp : List (String × InpVal)) (id : String) : Int :=
  match assocLookup id inp with
  | some v => occurOf v
  | none => 0

/-- A `requestInp` entry after the whole supplied map has been applied
to it: its occurrence count becomes the supplied value's count when the
key was supplied, and stays as it was otherwise. -/
def finalEntry (inp : List (String × InpVal)) (e : ReqEntry) : ReqEntry :=
  match assocLookup e.id inp with
  | some v => { e with occur := occurOf v }
  | none => e

/-! ## Concrete example processes -/

/-- A subprocess process with id `foo` whose only env var `FOOX`
carries the `FOO` prefix but not the `FOO_` prefix. -/
def pEnvarEx : Process :=
  { info := { version := "1", id := "foo", title := "t",
              jobControlOptions := [], outputTransmission := [] }
    host := { hostType := "subprocess", jobDefinition := "", jobQueue := "", image := "" }
    config := { envVars := ["FOOX"], cpus := 1, memory := 16 }
    inputs := []
    outputs := [] }

/-- A subprocess process with id `foo` whose only env var `FOO_BAR`
carries the full `FOO_` prefix. -/
def pGoodEx : Process :=
  { info := { version := "1", id := "foo", title := "t",
              jobControlOptions := [], outputTransmission := [] }
    host := { hostType := "subprocess", jobDefinition := "", jobQueue := "", image := "" }
    config := { envVars := ["FOO_BAR"], cpus := 1, memory := 16 }
    inputs := []
    outputs := [] }

/-- A subprocess process asking 4 cpus / 16 MB, used against limits of
2 cpus. -/
def pOverEx : Process :=
  { info := { version := "1", id := "foo", title := "t",
              jobControlOptions := [], outputTransmission := [] }
    host := { hostType := "subprocess", jobDefinition := "", jobQueue := "", image := "" }
    config := { envVars := [], cpus := 4, memory := 16 }
    inputs := []
    outputs := [] }

/-! ## Helper lemmas -/

theorem goTrimPrefix_append_of_hasPrefix (s pre : String) (h : goHasPrefix s pre = true) :
    pre ++ goTrimPrefix s pre = s := by
  unfold goTrimPrefix
  rw [h]
  simp only [if_true]
  unfold goHasPrefix at h
  rw [List.isPrefixOf_iff_prefix] at h
  obtain ⟨t, ht⟩ := h
  apply String.ext
  show pre.data ++ s.data.drop pre.data.length = s.data
  rw [← ht]
  simp

theorem goTrimPrefix_of_not_hasPrefix (s pre : String) (h : goHasPrefix s pre = false) :
    goTrimPrefix s pre = s := by
  unfold goTrimPrefix
  rw [h]
  simp

theorem release_after_reserve (p p1 : ResourcePool) (r : Resources)
    (h : ResourcePool.TryReserve p r = (true, p1))
    (hc : 0 ≤ p.usedCPUs) (hm : 0 ≤ p.usedMemory) :
    (p1.Release r).usedCPUs = p.usedCPUs ∧ (p1.Release r).usedMemory = p.usedMemory := by
  unfold ResourcePool.TryReserve at h
  split at h
  · obtain ⟨-, hp⟩ := Prod.mk.injEq .. ▸ h
    subst hp
    unfold ResourcePool.Release
    constructor
    · simp [max_eq_left hc]
    · simp [max_eq_left hm]
  · exact absurd (congrArg Prod.fst h) (by simp)

/-! ## Claim theorems -/

/-- Claim C3: for both job kinds, when the current status is terminal
(`successful`, `failed` or `dismissed`), `NewStatusUpdate` changes
nothing — no status change, no update-time change, no database write —
and consequently no sequence of further `NewStatusUpdate` calls ever
changes the job again. -/
theorem newStatusUpdate_terminal_noop (now : Int) (j : JobState) (s : String) (t : Int)
    (h : j.status = SUCCESSFUL ∨ j.status = DISMISSED ∨ j.status = FAILED) :
    SubprocessJob.NewStatusUpdate now j s t = j ∧
    DockerJob.NewStatusUpdate now j s t = j ∧
    (∀ us : List (Int × String × Int), applySubUpdates j us = j ∧ applyDockerUpdates j us = j) := by
  have hsub : ∀ n s' t', SubprocessJob.NewStatusUpdate n j s' t' = j := by
    intro n s' t'
    unfold SubprocessJob.NewStatusUpdate
    exact if_pos h
  have hdock : ∀ n s' t', DockerJob.NewStatusUpdate n j s' t' = j := by
    intro n s' t'
    unfold DockerJob.NewStatusUpdate
    exact if_pos h
  refine ⟨hsub now s t, hdock now s t, ?_⟩
  intro us
  induction us with
  | nil => exact ⟨rfl, rfl⟩
  | cons u rest ih =>
    constructor
    · show applySubUpdates (SubprocessJob.NewStatusUpdate u.1 j u.2.1 u.2.2) rest = j
      rw [hsub]
      exact ih.1
    · show applyDockerUpdates (DockerJob.NewStatusUpdate u.1 j u.2.1 u.2.2) rest = j
      rw [hdock]
      exact ih.2

/-- Witness for C3: a job already `successful` is untouched by a
`running` update and by a further sequence of updates. -/
theorem newStatusUpdate_terminal_noop_witness :
    (⟨"j1", "successful", 3, []⟩ : JobState).status = SUCCESSFUL ∧
    SubprocessJob.NewStatusUpdate 7 ⟨"j1", "successful", 3, []⟩ "running" 0 =
      ⟨"j1", "successful", 3, []⟩ ∧
    applySubUpdates ⟨"j1", "successful", 3, []⟩ [(8, "running", 0), (9, "failed", 2)] =
      ⟨"j1", "successful", 3, []⟩ := by
  refine ⟨rfl, ?_, ?_⟩
  · exact (newStatusUpdate_terminal_noop 7 ⟨"j1", "successful", 3, []⟩ "running" 0
      (Or.inl rfl)).1
  · exact ((newStatusUpdate_terminal_noop 7 ⟨"j1", "successful", 3, []⟩ "running" 0
      (Or.inl rfl)).2.2 [(8, "running", 0), (9, "failed", 2)]).1

/-- Claim C6: for both job kinds, `Kill()` returns an error and changes no
job state when the current status is terminal; otherwise it sets the
status to `dismissed`, cancels the job's context, schedules `Close()`,
and returns nil, so after a successful `Kill` the observable status is
`dismissed`. -/
theorem kill_terminal_refuses_else_dismisses (now : Int) (j : KillJob) :
    ((j.core.status = SUCCESSFUL ∨ j.core.status = FAILED ∨ j.core.status = DISMISSED) →
      SubprocessJob.Kill now j =
        (some "can't call delete on an already completed, failed, or dismissed job", j) ∧
      DockerJob.Kill now j =
        (some "can't call delete on an already completed, failed, or dismissed job", j)) ∧
    (¬(j.core.status = SUCCESSFUL ∨ j.core.status = FAILED ∨ j.core.status = DISMISSED) →
      ∃ j' : KillJob,
        SubprocessJob.Kill now j = (none, j') ∧
        DockerJob.Kill now j = (none, j') ∧
        j'.core.status = DISMISSED ∧ j'.ctxCancelled = true ∧ j'.closeScheduled = true) := by
  constructor
  · intro h
    constructor
    · unfold SubprocessJob.Kill
      rw [if_pos h]
    · unfold DockerJob.Kill
      rw [if_pos h]
  · intro h
    have hns : ¬(j.core.status = SUCCESSFUL ∨ j.core.status = DISMISSED ∨
        j.core.status = FAILED) := by tauto
    refine ⟨⟨SubprocessJob.NewStatusUpdate now j.core DISMISSED 0, true, true⟩, ?_, ?_, ?_, rfl, rfl⟩
    · unfold SubprocessJob.Kill
      rw [if_neg h]
    · unfold DockerJob.Kill SubprocessJob.NewStatusUpdate DockerJob.NewStatusUpdate
      rw [if_neg h]
    · show (SubprocessJob.NewStatusUpdate now j.core DISMISSED 0).status = DISMISSED
      unfold SubprocessJob.NewStatusUpdate
      rw [if_neg hns]

/-- Witness for C6: `Kill` refuses a `failed` job untouched and
dismisses a `running` one. -/
theorem kill_terminal_refuses_else_dismisses_witness :
    ((⟨⟨"j1", "failed", 3, []⟩, false, false⟩ : KillJob).core.status = SUCCESSFUL ∨
      (⟨⟨"j1", "failed", 3, []⟩, false, false⟩ : KillJob).core.status = FAILED ∨
      (⟨⟨"j1", "failed", 3, []⟩, false, false⟩ : KillJob).core.status = DISMISSED) ∧
    SubprocessJob.Kill 7 ⟨⟨"j1", "failed", 3, []⟩, false, false⟩ =
      (some "can't call delete on an already completed, failed, or dismissed job",
        ⟨⟨"j1", "failed", 3, []⟩, false, false⟩) ∧
    (∃ j' : KillJob,
      SubprocessJob.Kill 7 ⟨⟨"j2", "running", 3, []⟩, false, false⟩ = (none, j') ∧
      DockerJob.Kill 7 ⟨⟨"j2", "running", 3, []⟩, false, false⟩ = (none, j') ∧
      j'.core.status = DISMISSED ∧ j'.ctxCancelled = true ∧ j'.closeScheduled = true) := by
  refine ⟨Or.inr (Or.inl rfl), ?_, ?_⟩
  · exact ((kill_terminal_refuses_else_dismisses 7 ⟨⟨"j1", "failed", 3, []⟩, false, false⟩).1
      (Or.inr (Or.inl rfl))).1
  · exact (kill_terminal_refuses_else_dismisses 7 ⟨⟨"j2", "running", 3, []⟩, false, false⟩).2
      (by decide)

theorem subClose_of_closed (s : SubCloseState) (h : s.closed = true) :
    SubprocessJob.Close s = s := by
  unfold SubprocessJob.Close
  simp [h]

theorem subClose_closed (s : SubCloseState) : (SubprocessJob.Close s).closed = true := by
  unfold SubprocessJob.Close
  split
  · assumption
  · rfl

theorem subCloseN_of_closed (n : Nat) (s : SubCloseState) (h : s.closed = true) :
    SubprocessJob.closeN n s = s := by
  induction n with
  | zero => rfl
  | succ k ih =>
    show SubprocessJob.closeN k (SubprocessJob.Close s) = s
    rw [subClose_of_closed s h]
    exact ih

theorem dockerClose_of_closed (e : DockerCloseEnv) (d : DockerCloseState)
    (h : d.closed = true) : DockerJob.Close e d = d := by
  unfold DockerJob.Close
  simp [h]

theorem dockerClose_closed (e : DockerCloseEnv) (d : DockerCloseState) :
    (DockerJob.Close e d).closed = true := by
  unfold DockerJob.Close
  split
  · assumption
  · split
    · split
      · split
        · rfl
        · rfl
      · rfl
    · rfl

theorem dockerCloseSeq_of_closed (es : List DockerCloseEnv) (d : DockerCloseState)
    (h : d.closed = true) : DockerJob.closeSeq es d = d := by
  induction es with
  | nil => rfl
  | cons e rest ih =>
    show DockerJob.closeSeq rest (DockerJob.Close e d) = d
    rw [dockerClose_of_closed e d h]
    exact ih

theorem subClose_bodyRuns (s : SubCloseState) :
    (SubprocessJob.Close s).bodyRuns = if s.closed then s.bodyRuns else s.bodyRuns + 1 := by
  unfold SubprocessJob.Close
  split <;> simp_all

theorem dockerClose_bodyRuns (e : DockerCloseEnv) (d : DockerCloseState) :
    (DockerJob.Close e d).bodyRuns = if d.closed then d.bodyRuns else d.bodyRuns + 1 := by
  unfold DockerJob.Close
  split
  · simp_all
  · split
    · split
      · split
        · simp_all
        · simp_all
      · simp_all
    · simp_all

/-- Claim C4: for any number of `Close()` calls on the same job — from
`Kill`, from `Run`'s deferred cleanup, or repeated by any caller — the
cleanup body runs exactly once (`bodyRuns` grows by exactly one from a
not-yet-closed state), and every call after the first is a no-op:
`Close` is idempotent for both job kinds, whatever the environment
outcomes of the later calls. -/
theorem close_body_exactly_once (s : SubCloseState) (n : Nat)
    (e e2 : DockerCloseEnv) (es : List DockerCloseEnv) (d : DockerCloseState) :
    SubprocessJob.Close (SubprocessJob.Close s) = SubprocessJob.Close s ∧
    SubprocessJob.closeN (n + 1) s = SubprocessJob.Close s ∧
    (SubprocessJob.closeN (n + 1) s).bodyRuns =
      (if s.closed then s.bodyRuns else s.bodyRuns + 1) ∧
    DockerJob.Close e2 (DockerJob.Close e d) = DockerJob.Close e d ∧
    DockerJob.closeSeq es (DockerJob.Close e d) = DockerJob.Close e d ∧
    (DockerJob.closeSeq (e :: es) d).bodyRuns =
      (if d.closed then d.bodyRuns else d.bodyRuns + 1) := by
  have hsubN : SubprocessJob.closeN (n + 1) s = SubprocessJob.Close s := by
    show SubprocessJob.closeN n (SubprocessJob.Close s) = SubprocessJob.Close s
    exact subCloseN_of_closed n _ (subClose_closed s)
  have hdockSeq : DockerJob.closeSeq es (DockerJob.Close e d) = DockerJob.Close e d :=
    dockerCloseSeq_of_closed es _ (dockerClose_closed e d)
  refine ⟨subClose_of_closed _ (subClose_closed s), hsubN, ?_,
    dockerClose_of_closed e2 _ (dockerClose_closed e d), hdockSeq, ?_⟩
  · rw [hsubN]
    exact subClose_bodyRuns s
  · show (DockerJob.closeSeq es (DockerJob.Close e d)).bodyRuns = _
    rw [hdockSeq]
    exact dockerClose_bodyRuns e d

/-- Claim C2, failing-input evaluation of `DockerJob.Run` at the failing environment
`dockerGapEnv` (container ran and exited 0, nobody closed the job
earlier, the controller is created inside `Close`, but `os.Create` of
the process-log file fails there).  The deferred cleanup releases the
resources exactly once and ends with `wgRun.Done()`, but the `Close`
body's early `return` (docker_jobs.go:480-483) skips the
`j.DoneChan <- j` send: the trace contains `wgDone` and no `doneSend`,
contradicting the claim that `wgRun.Done` happens only after `Close`
has enqueued the job on `DoneChan`. -/
theorem dockerClose_fileCreateFailure_skips_doneChan :
    (dockerRunTrace dockerGapEnv).count .doneSend = 0 ∧
    (dockerRunTrace dockerGapEnv).count .wgDone = 1 ∧
    (dockerRunTrace dockerGapEnv).count .release = 1 ∧
    dockerRunTrace dockerGapEnv =
      [.started, .status RUNNING, .waited, .status SUCCESSFUL, .metaSpawn,
       .release, .closeCall, .ctxCancel, .wgDone] := by
  decide

/-- Claim C1: in a `QueueWorker.tryStartJobs` iteration where `Peek` saw head
job `j`, `TryReserve` succeeded for `j`'s resources, but `Remove` of
`j`'s id returned nil (the job was dismissed between peek and remove),
the worker releases exactly the reserved resources and continues with
the new head: the used counters are net unchanged by the iteration, and
the dismissed job is never started. -/
theorem tryStartJobs_raced_iteration_safe
    (q1 q2 : List QJob) (p p1 : ResourcePool) (j : QJob)
    (hpeek : PendingJobs.Peek q1 = some j)
    (hres : ResourcePool.TryReserve p j.resources = (true, p1))
    (hrem : PendingJobs.Remove j.jobID q2 = none)
    (hc : 0 ≤ p.usedCPUs) (hm : 0 ≤ p.usedMemory) :
    tryStartIter q1 q2 p = .raced (p1.Release j.resources) ∧
    (p1.Release j.resources).usedCPUs = p.usedCPUs ∧
    (p1.Release j.resources).usedMemory = p.usedMemory ∧
    ∀ rj rp rq, tryStartIter q1 q2 p ≠ .started rj rp rq := by
  have hstep : tryStartIter q1 q2 p = .raced (p1.Release j.resources) := by
    unfold tryStartIter
    rw [hpeek]
    simp only [hres, hrem]
  obtain ⟨hcpu, hmem⟩ := release_after_reserve p p1 j.resources hres hc hm
  refine ⟨hstep, hcpu, hmem, ?_⟩
  intro rj rp rq hcontra
  rw [hstep] at hcontra
  exact IterResult.noConfusion hcontra

/-- Witness for C1: head job `a` needs 1 cpu / 100 MB; the pool
(2 cpus, 200 MB, nothing used) grants the reservation, the queue at
remove time no longer holds `a`, and the iteration nets out to the
original used counters. -/
theorem tryStartJobs_raced_iteration_safe_witness :
    PendingJobs.Peek [⟨"a", ⟨1, 100⟩⟩] = some ⟨"a", ⟨1, 100⟩⟩ ∧
    ResourcePool.TryReserve ⟨2, 200, 0, 0, 1, 100⟩ (⟨1, 100⟩ : Resources) =
      (true, ⟨2, 200, 0 + 1, 0 + 100, 1, 100⟩) ∧
    PendingJobs.Remove "a" [] = none ∧
    tryStartIter [⟨"a", ⟨1, 100⟩⟩] [] ⟨2, 200, 0, 0, 1, 100⟩ =
      .raced (ResourcePool.Release ⟨2, 200, 0 + 1, 0 + 100, 1, 100⟩ ⟨1, 100⟩) ∧
    (ResourcePool.Release ⟨2, 200, 0 + 1, 0 + 100, 1, 100⟩ ⟨1, 100⟩).usedCPUs = 0 ∧
    (ResourcePool.Release ⟨2, 200, 0 + 1, 0 + 100, 1, 100⟩ ⟨1, 100⟩).usedMemory = 0 := by
  have hres : ResourcePool.TryReserve ⟨2, 200, 0, 0, 1, 100⟩ (⟨1, 100⟩ : Resources) =
      (true, ⟨2, 200, 0 + 1, 0 + 100, 1, 100⟩) := by
    unfold ResourcePool.TryReserve
    rw [if_pos (by norm_num)]
  have h := tryStartJobs_raced_iteration_safe [⟨"a", ⟨1, 100⟩⟩] [] ⟨2, 200, 0, 0, 1, 100⟩
    ⟨2, 200, 0 + 1, 0 + 100, 1, 100⟩ ⟨"a", ⟨1, 100⟩⟩ rfl hres rfl (le_refl 0) (le_refl 0)
  exact ⟨rfl, hres, rfl, h.1, h.2.1, h.2.2.1⟩

/-- Claim C5: `Create()` calls `TryReserve` iff the job is sync, fails with
an error when `TryReserve` refuses, and on every error path after a
successful reservation the deferred cleanup releases it, so a failed
`Create` leaves the pool's used counters unchanged. -/
theorem create_reserves_iff_sync_and_error_releases
    (isSync : Bool) (r : Resources) (env : CreateEnv) (p : ResourcePool)
    (hc : 0 ≤ p.usedCPUs) (hm : 0 ≤ p.usedMemory) :
    (createJob isSync r env p).reserveAttempted = isSync ∧
    (isSync = true → (ResourcePool.TryReserve p r).1 = false →
      (createJob isSync r env p).err.isSome = true) ∧
    ((createJob isSync r env p).err.isSome = true →
      (createJob isSync r env p).pool.usedCPUs = p.usedCPUs ∧
      (createJob isSync r env p).pool.usedMemory = p.usedMemory) := by
  cases isSync
  · cases hl : env.loggerOk <;> cases ha : env.addJobOk <;>
      simp [createJob, hl, ha]
  · rcases htr : ResourcePool.TryReserve p r with ⟨b, p1⟩
    cases b
    · simp [createJob, htr]
    · have hrel := release_after_reserve p p1 r htr hc hm
      cases hl : env.loggerOk <;> cases ha : env.addJobOk <;>
        simp [createJob, htr, hl, ha, hrel.1, hrel.2]

/-- Witness for C5: a sync job asking 1 cpu / 1 MB from a full pool
(2 of 2 cpus, 200 of 200 MB used) is refused with an error and the
used counters stay at 2 / 200. -/
theorem create_reserves_iff_sync_and_error_releases_witness :
    (createJob true ⟨1, 1⟩ ⟨true, true⟩ ⟨2, 200, 2, 200, 0, 0⟩).reserveAttempted = true ∧
    (createJob true ⟨1, 1⟩ ⟨true, true⟩ ⟨2, 200, 2, 200, 0, 0⟩).err.isSome = true ∧
    (createJob true ⟨1, 1⟩ ⟨true, true⟩ ⟨2, 200, 2, 200, 0, 0⟩).pool.usedCPUs = 2 ∧
    (createJob true ⟨1, 1⟩ ⟨true, true⟩ ⟨2, 200, 2, 200, 0, 0⟩).pool.usedMemory = 200 := by
  have hf : (ResourcePool.TryReserve ⟨2, 200, 2, 200, 0, 0⟩ ⟨1, 1⟩).1 = false := by
    unfold ResourcePool.TryReserve
    rw [if_neg (by norm_num)]
  have h := create_reserves_iff_sync_and_error_releases true ⟨1, 1⟩ ⟨true, true⟩
    ⟨2, 200, 2, 200, 0, 0⟩ (by norm_num) (by norm_num)
  have herr := h.2.1 rfl hf
  exact ⟨h.1, herr, (h.2.2 herr).1, (h.2.2 herr).2⟩

theorem collectEnvVars_some_nil_iff (getenv : String → String) (u : String)
    (vs : List String) :
    collectEnvVars getenv u vs = some [] ↔
      ∀ v ∈ vs, goHasPrefix v u = true ∧ getenv v ≠ "" := by
  induction vs with
  | nil => simp [collectEnvVars]
  | cons v rest ih =>
    unfold collectEnvVars
    by_cases hp : goHasPrefix v u = true
    · rw [if_neg (by simp [hp])]
      cases hc : collectEnvVars getenv u rest with
      | none =>
        simp only [List.mem_cons]
        constructor
        · intro h
          exact absurd h (by simp)
        · intro h
          have : collectEnvVars getenv u rest = some [] :=
            ih.mpr fun x hx => h x (Or.inr hx)
          rw [hc] at this
          exact absurd this (by simp)
      | some ms =>
        rw [hc] at ih
        by_cases hg : getenv v = ""
        · simp [hg, hp]
        · simp only [hg, if_neg hg, Option.some.injEq, List.mem_cons] at ih ⊢
          constructor
          · intro h
            rintro x (rfl | hx)
            · exact ⟨hp, hg⟩
            · exact (ih.mp h) x hx
          · intro h
            exact ih.mpr fun x hx => h x (Or.inr hx)
    · rw [if_pos (by simpa using hp)]
      simp only [List.mem_cons]
      constructor
      · intro h
        exact absurd h (by simp)
      · intro h
        exact absurd (h v (Or.inl rfl)).1 hp

theorem verifyLocalEnvars_none_iff_collect (getenv : String → String) (p : Process) :
    p.VerifyLocalEnvars getenv = none ↔
      collectEnvVars getenv (goToUpper p.info.id) p.config.envVars = some [] := by
  unfold Process.VerifyLocalEnvars
  rcases hc : collectEnvVars getenv (goToUpper p.info.id) p.config.envVars with - | (- | ⟨m, ms⟩) <;>
    simp

/-- Claim C7 counterexample: for the process `pEnvarEx` (id `foo`, env var
`FOOX`), `VerifyLocalEnvars` and `Validate` both accept although
`FOOX` does not start with `UPPER("foo") ++ "_" = "FOO_"`, and the
resolution loop passes the name through unstripped (`FOOX=x`), refuting
the claim that names without the `UPPER(id)+"_"` prefix are rejected
and that exactly this prefix is stripped from accepted names. -/
theorem verifyLocalEnvars_accepts_missing_underscore :
    Process.VerifyLocalEnvars (fun _ => "x") pEnvarEx = none ∧
    Process.Validate ⟨fun _ => "x", true, true⟩ pEnvarEx = none ∧
    goHasPrefix "FOOX" (goToUpper "foo" ++ "_") = false ∧
    resolveEnvVars (fun _ => "x") "foo" ["FOOX"] = ["FOOX=x"] := by
  decide

/-- Claim C7 amended: `VerifyLocalEnvars` accepts exactly the processes all
of whose env-var names start with `UPPER(id)` — the underscore is not
required — and have a non-empty host value; in the resolution loop the
prefix `UPPER(processName)+"_"` is stripped exactly when the name
carries it, and names without it are passed unchanged. -/
theorem verifyLocalEnvars_prefix_iff_and_strip (getenv : String → String) (p : Process) :
    (p.VerifyLocalEnvars getenv = none ↔
      ∀ v ∈ p.config.envVars, goHasPrefix v (goToUpper p.info.id) = true ∧ getenv v ≠ "") ∧
    (∀ pid k : String,
      (goHasPrefix k (goToUpper pid ++ "_") = true →
        goToUpper pid ++ "_" ++ goTrimPrefix k (goToUpper pid ++ "_") = k) ∧
      (goHasPrefix k (goToUpper pid ++ "_") = false →
        goTrimPrefix k (goToUpper pid ++ "_") = k)) ∧
    (∀ processName vars, resolveEnvVars getenv processName vars =
      vars.map (fun k => goTrimPrefix k (goToUpper processName ++ "_") ++ "=" ++ getenv k)) := by
  refine ⟨?_, ?_, fun _ _ => rfl⟩
  · exact (verifyLocalEnvars_none_iff_collect getenv p).trans
      (collectEnvVars_some_nil_iff getenv (goToUpper p.info.id) p.config.envVars)
  · intro pid k
    constructor
    · intro h
      exact goTrimPrefix_append_of_hasPrefix k (goToUpper pid ++ "_") h
    · exact goTrimPrefix_of_not_hasPrefix k (goToUpper pid ++ "_")

/-- Witness for C7 (amended): the process `pGoodEx` (id `foo`, env var
`FOO_BAR`, non-empty host value) is accepted, and stripping `FOO_` from
`FOO_BAR` inverts appending it. -/
theorem verifyLocalEnvars_prefix_iff_and_strip_witness :
    Process.VerifyLocalEnvars (fun _ => "v") pGoodEx = none ∧
    goToUpper "foo" ++ "_" ++ goTrimPrefix "FOO_BAR" (goToUpper "foo" ++ "_") = "FOO_BAR" := by
  constructor
  · exact (verifyLocalEnvars_prefix_iff_and_strip (fun _ => "v") pGoodEx).1.mpr (by decide)
  · exact ((verifyLocalEnvars_prefix_iff_and_strip (fun _ => "v") pGoodEx).2.1
      "foo" "FOO_BAR").1 (by decide)

/-- Claim C8: at process load, every process with a local host type (docker
or subprocess) whose `maxResources` cpus exceed `limits.MaxCPUs` or
whose memory exceeds `limits.MaxMemory` fails validation and is not
registered. -/
theorem validate_rejects_resources_over_limits
    (env : ValidateEnv) (maxC : ℚ) (maxM : ℤ) (p : Process) (ps : List Process)
    (hlocal : p.host.hostType = "docker" ∨ p.host.hostType = "subprocess")
    (hover : maxC < p.config.cpus ∨ maxM < p.config.memory) :
    (p.ValidateWithLimits env maxC maxM).isSome = true ∧
    p ∉ LoadProcesses env maxC maxM ps := by
  have hv : p.ValidateWithLimits env maxC maxM =
      some "process resources exceed configured limits" := by
    unfold Process.ValidateWithLimits
    exact if_pos ⟨hlocal, hover⟩
  refine ⟨by rw [hv]; rfl, ?_⟩
  intro hmem
  have h2 := (List.mem_filter.mp hmem).2
  simp only [hv] at h2
  exact absurd h2 (by simp)

/-- Witness for C8: `pOverEx` (subprocess, 4 cpus) against limits of
2 cpus / 8192 MB is rejected and absent from the loaded list. -/
theorem validate_rejects_resources_over_limits_witness :
    (pOverEx.host.hostType = "docker" ∨ pOverEx.host.hostType = "subprocess") ∧
    ((2 : ℚ) < pOverEx.config.cpus ∨ (8192 : ℤ) < pOverEx.config.memory) ∧
    (pOverEx.ValidateWithLimits ⟨fun _ => "x", true, true⟩ 2 8192).isSome = true ∧
    pOverEx ∉ LoadProcesses ⟨fun _ => "x", true, true⟩ 2 8192 [pOverEx] := by
  have hover : (2 : ℚ) < pOverEx.config.cpus ∨ (8192 : ℤ) < pOverEx.config.memory := by
    left
    show (2 : ℚ) < 4
    norm_num
  have h := validate_rejects_resources_over_limits ⟨fun _ => "x", true, true⟩ 2 8192
    pOverEx [pOverEx] (Or.inr rfl) hover
  exact ⟨Or.inr rfl, hover, h.1, h.2⟩

theorem assocLookup_eq_none_of_not_mem (k : String) (inp : List (String × InpVal))
    (h : k ∉ inp.map Prod.fst) : assocLookup k inp = none := by
  induction inp with
  | nil => rfl
  | cons kv rest ih =>
    obtain ⟨k0, v0⟩ := kv
    simp only [List.map_cons, List.mem_cons, not_or] at h
    unfold assocLookup
    rw [if_neg (fun he => h.1 he.symm)]
    exact ih h.2

theorem setOccur_eq_none_iff (k : String) (n : Int) (req : List ReqEntry) :
    setOccur k n req = none ↔ k ∉ req.map (·.id) := by
  induction req with
  | nil => simp [setOccur]
  | cons e rest ih =>
    unfold setOccur
    by_cases he : e.id = k
    · simp [he]
    · rw [if_neg he, Option.map_eq_none', ih]
      simp only [List.map_cons, List.mem_cons, not_or]
      constructor
      · intro h
        exact ⟨fun hk => he hk.symm, h⟩
      · intro h
        exact h.2

theorem setOccur_ids (k : String) (n : Int) :
    ∀ req req' : List ReqEntry, setOccur k n req = some req' →
      req'.map (·.id) = req.map (·.id) := by
  intro req
  induction req with
  | nil =>
    intro req' h
    simp [setOccur] at h
  | cons e rest ih =>
    intro req' h
    unfold setOccur at h
    by_cases he : e.id = k
    · rw [if_pos he] at h
      obtain rfl := Option.some.inj h
      simp
    · rw [if_neg he] at h
      rcases ho : setOccur k n rest with - | rest'
      · rw [ho] at h
        exact absurd h (by simp)
      · rw [ho, Option.map_some'] at h
        obtain rfl := Option.some.inj h
        simp [ih rest' ho]

theorem setOccur_eq_map (k : String) (n : Int) :
    ∀ req : List ReqEntry, (req.map (·.id)).Nodup → k ∈ req.map (·.id) →
      setOccur k n req =
        some (req.map (fun e => if e.id = k then { e with occur := n } else e)) := by
  intro req
  induction req with
  | nil =>
    intro _ hk
    simp at hk
  | cons e rest ih =>
    intro hnd hk
    simp only [List.map_cons, List.nodup_cons] at hnd
    unfold setOccur
    by_cases he : e.id = k
    · rw [if_pos he]
      have hrest : rest.map (fun x => if x.id = k then { x with occur := n } else x) = rest := by
        conv_rhs => rw [← List.map_id rest]
        apply List.map_congr_left
        intro x hx
        have hxk : x.id ≠ k := by
          intro hxk
          exact hnd.1 (he ▸ hxk ▸ List.mem_map_of_mem (·.id) hx)
        rw [if_neg hxk]
        rfl
      simp only [List.map_cons, if_pos he, hrest]
    · rw [if_neg he]
      have hk' : k ∈ rest.map (·.id) := by
        rcases List.mem_cons.mp hk with h1 | h2
        · exact absurd h1.symm he
        · exact h2
      rw [ih hnd.2 hk', Option.map_some']
      simp only [List.map_cons, if_neg he]

theorem applyInp_some_keys :
    ∀ (inp : List (String × InpVal)) (req req' : List ReqEntry),
      applyInp req inp = some req' → ∀ kv ∈ inp, kv.1 ∈ req.map (·.id) := by
  intro inp
  induction inp with
  | nil =>
    intro req req' _ kv hkv
    simp at hkv
  | cons kv0 rest ih =>
    intro req req' h kv hkv
    obtain ⟨k0, v0⟩ := kv0
    unfold applyInp at h
    rcases hs : setOccur k0 (occurOf v0) req with - | req1
    · rw [hs] at h
      exact absurd h (by simp)
    · rw [hs] at h
      rcases List.mem_cons.mp hkv with rfl | hkv'
      · by_contra hnot
        rw [(setOccur_eq_none_iff k0 (occurOf v0) req).mpr hnot] at hs
        exact absurd hs (by simp)
      · have := ih req1 req' h kv hkv'
        rwa [setOccur_ids k0 (occurOf v0) req req1 hs] at this

theorem applyInp_eq_map :
    ∀ (inp : List (String × InpVal)) (req : List ReqEntry),
      (req.map (·.id)).Nodup → (inp.map Prod.fst).Nodup →
      (∀ kv ∈ inp, kv.1 ∈ req.map (·.id)) →
      applyInp req inp = some (req.map (finalEntry inp)) := by
  intro inp
  induction inp with
  | nil =>
    intro req _ _ _
    unfold applyInp
    congr 1
    conv_lhs => rw [← List.map_id req]
    apply List.map_congr_left
    intro e _
    unfold finalEntry assocLookup
    rfl
  | cons kv rest ih =>
    obtain ⟨k, v⟩ := kv
    intro req hnd hinp hkeys
    simp only [List.map_cons, List.nodup_cons] at hinp
    have hk : k ∈ req.map (·.id) := hkeys (k, v) (List.mem_cons_self _ _)
    unfold applyInp
    rw [setOccur_eq_map k (occurOf v) req hnd hk]
    show applyInp (req.map fun e => if e.id = k then { e with occur := occurOf v } else e)
      rest = some (req.map (finalEntry ((k, v) :: rest)))
    have hids : ((req.map fun e => if e.id = k then { e with occur := occurOf v } else e).map
        (·.id)) = req.map (·.id) := by
      rw [List.map_map]
      apply List.map_congr_left
      intro x _
      by_cases hx : x.id = k <;> simp [hx]
    rw [ih _ (hids ▸ hnd) hinp.2 (fun kv' hkv' => hids ▸ hkeys kv' (List.mem_cons_of_mem _ hkv'))]
    congr 1
    rw [List.map_map]
    apply List.map_congr_left
    intro e _
    by_cases he : e.id = k
    · simp only [Function.comp_apply, if_pos he]
      unfold finalEntry
      show (match assocLookup e.id rest with
        | some v' => { e with occur := occurOf v' }
        | none => { e with occur := occurOf v }) = _
      rw [assocLookup_eq_none_of_not_mem e.id rest (he ▸ hinp.1)]
      show { e with occur := occurOf v } =
        (match assocLookup e.id ((k, v) :: rest) with
          | some v' => { e with occur := occurOf v' }
          | none => e)
      unfold assocLookup
      rw [if_pos he.symm]
    · simp only [Function.comp_apply, if_neg he]
      unfold finalEntry
      have : assocLookup e.id ((k, v) :: rest) = assocLookup e.id rest := by
        show (if k = e.id then some v else assocLookup e.id rest) = assocLookup e.id rest
        rw [if_neg (fun hke => he hke.symm)]
      rw [this]

theorem finalEntry_toReqEntry (inp : List (String × InpVal)) (i : InputSpec) :
    finalEntry inp (toReqEntry i) = ⟨i.id, suppliedCount inp i.id, i.minOccurs, i.maxOccurs⟩ := by
  unfold finalEntry toReqEntry suppliedCount
  cases h : assocLookup i.id inp <;> simp [h]

theorem checkEntry_iff (e : ReqEntry) :
    checkEntry e = true ↔
      e.minOccur ≤ e.occur ∧ (0 < e.maxOccur → e.occur ≤ e.maxOccur) := by
  unfold checkEntry
  rw [decide_eq_true_eq]
  push_neg
  constructor
  · intro h
    exact ⟨h.2, h.1⟩
  · intro h
    exact ⟨h.2, h.1⟩

/-- Claim C9 counterexample: a declared input `a` with `minOccurs = 0` and
`maxOccurs = 0`, supplied once, is accepted by `VerifyInputs` (the Go
cap applies only when `maxOccurs > 0`) although its occurrence count 1
exceeds its `maxOccurs` 0 — so "returns nil iff … no more than its
maxOccurs" is false as stated. -/
theorem verifyInputs_maxOccurs_zero_counterexample :
    verifyInputs [⟨"a", 0, 0⟩] [("a", .scalar)] = true ∧
    suppliedCount [("a", .scalar)] "a" = 1 ∧
    ¬((1 : Int) ≤ 0) := by
  decide

/-- Claim C9 amended: `VerifyInputs` returns nil iff every key of the
supplied input map is a declared input of the process and — counting a
sequence as `len(seq)` occurrences, any other value as 1, an absent
input as 0 — every declared input's occurrence count is at least its
`minOccurs` and, when its `maxOccurs` is positive, no more than its
`maxOccurs`.  Declared ids and supplied keys are unique, as they are
for Go maps. -/
theorem verifyInputs_nil_iff (inputs : List InputSpec) (inp : List (String × InpVal))
    (h1 : (inputs.map (·.id)).Nodup) (h2 : (inp.map Prod.fst).Nodup) :
    verifyInputs inputs inp = true ↔
      ((∀ kv ∈ inp, kv.1 ∈ inputs.map (·.id)) ∧
       ∀ i ∈ inputs, i.minOccurs ≤ suppliedCount inp i.id ∧
         (0 < i.maxOccurs → suppliedCount inp i.id ≤ i.maxOccurs)) := by
  have hids : (inputs.map toReqEntry).map (·.id) = inputs.map (·.id) := by
    rw [List.map_map]
    rfl
  constructor
  · intro hv
    unfold verifyInputs at hv
    rcases ha : applyInp (inputs.map toReqEntry) inp with - | req'
    · rw [ha] at hv
      exact absurd hv (by simp)
    · rw [ha] at hv
      have hkeys : ∀ kv ∈ inp, kv.1 ∈ inputs.map (·.id) := by
        intro kv hkv
        have := applyInp_some_keys inp _ _ ha kv hkv
        rwa [hids] at this
      refine ⟨hkeys, ?_⟩
      have ha2 := applyInp_eq_map inp (inputs.map toReqEntry) (by rwa [hids]) h2
        (fun kv hkv => by rw [hids]; exact hkeys kv hkv)
      rw [ha] at ha2
      obtain rfl := Option.some.inj ha2
      intro i hi
      have hmem : finalEntry inp (toReqEntry i) ∈
          (inputs.map toReqEntry).map (finalEntry inp) :=
        List.mem_map_of_mem (finalEntry inp) (List.mem_map_of_mem toReqEntry hi)
      have := List.all_eq_true.mp hv _ hmem
      rw [finalEntry_toReqEntry, checkEntry_iff] at this
      exact this
  · rintro ⟨hkeys, hocc⟩
    unfold verifyInputs
    rw [applyInp_eq_map inp (inputs.map toReqEntry) (by rwa [hids]) h2
      (fun kv hkv => by rw [hids]; exact hkeys kv hkv)]
    apply List.all_eq_true.mpr
    intro e he
    rw [List.map_map] at he
    obtain ⟨i, hi, rfl⟩ := List.mem_map.mp he
    show checkEntry (finalEntry inp (toReqEntry i)) = true
    rw [finalEntry_toReqEntry, checkEntry_iff]
    exact hocc i hi

/-- Witness for C9 (amended): input `a` with bounds `[1, 2]`, supplied
as a sequence of length 2, is accepted. -/
theorem verifyInputs_nil_iff_witness :
    verifyInputs [⟨"a", 1, 2⟩] [("a", .seq 2)] = true :=
  (verifyInputs_nil_iff [⟨"a", 1, 2⟩] [("a", .seq 2)] (by decide) (by decide)).mpr
    (by decide)

/-- Claim C10: a declared input whose `maxOccurs` is 0 or negative has no
upper bound in `VerifyInputs`: the cap is enforced only when
`maxOccurs > 0`, so any occurrence count at least `minOccurs` is
accepted. -/
theorem verifyInputs_maxOccurs_nonpositive_unbounded (idv : String) (minO maxO : Int)
    (n : Nat) (h : maxO ≤ 0) :
    verifyInputs [⟨idv, minO, maxO⟩] [(idv, .seq n)] = true ↔ minO ≤ (n : Int) := by
  have hred : verifyInputs [⟨idv, minO, maxO⟩] [(idv, .seq n)] =
      checkEntry ⟨idv, (n : Int), minO, maxO⟩ := by
    simp [verifyInputs, toReqEntry, applyInp, setOccur, occurOf]
  rw [hred, checkEntry_iff]
  show minO ≤ (n : Int) ∧ (0 < maxO → (n : Int) ≤ maxO) ↔ minO ≤ (n : Int)
  constructor
  · exact fun hx => hx.1
  · exact fun hx => ⟨hx, fun hm => absurd hm (by omega)⟩

/-- Witness for C10: an input with `minOccurs = 2`, `maxOccurs = 0`,
supplied 5 times, is accepted. -/
theorem verifyInputs_maxOccurs_nonpositive_unbounded_witness :
    (0 : Int) ≤ 0 ∧ verifyInputs [⟨"a", 2, 0⟩] [("a", .seq 5)] = true :=
  ⟨le_refl 0,
    (verifyInputs_maxOccurs_nonpositive_unbounded "a" 2 0 5 (le_refl 0)).mpr (by decide)⟩

end Sepex
